import Mathlib

/-!
Verification of the lenticular composition engine of `lenticular-image-tool`.

The development shallowly embeds the Rust sources:
  * `crates/core/src/lenticular/mod.rs`   (column index mapping)
  * `crates/core/src/lenticular/tiff.rs`  (output planning, composition,
    resolution normalization)
  * `crates/core/src/error.rs`            (error type)
  * `bin/cli/src/main.rs`                 (auto stripe-width search loop)

Modelling conventions:
  * Rust `f64` values are modelled as exact rationals (`ℚ`); decimal literals
    such as `0.3937` become the exact rational `3937 / 10000`.  All quantities
    appearing in the verified claims are far from rounding boundaries, so the
    abstraction is faithful for them.
  * Rust `usize` values are modelled as `Nat`; the `as u32` cast from `f64`
    is modelled exactly (truncation towards zero of the rational, clamped to
    `[0, 2^32 - 1]`, negative values clamped to `0`), and the `as u32`
    narrowing cast from `usize` is modelled as `% 2^32`.
  * The dense pixel matrix (`ndarray::Array2`) is modelled as its list of
    columns, because the composition code manipulates it exclusively through
    whole-column reads and writes (`column`, `index_axis_mut(Axis(1), _)`).
  * External capabilities (TIFF decode, `fast_image_resize` resampling) are
    inputs of the embedded functions: decoding is represented by the already
    decoded pixel data carried in `InputImageContext`, and resampling is a
    function parameter.
-/

deriving instance DecidableEq for Except

namespace Lenticular

/-- One CMYK pixel, 8 bits per channel (`image/mod.rs`, `Cmyk8Color`).
Channel values are only ever moved, never computed on, so `Nat` suffices. -/
structure Cmyk8Color where
  c : Nat
  m : Nat
  y : Nat
  k : Nat
deriving Repr, DecidableEq

instance : Inhabited Cmyk8Color := ⟨⟨0, 0, 0, 0⟩⟩

/-- A single pixel column of an image (all rows, all channels). -/
abbrev Column := List Cmyk8Color

/-- Color type of a decoded TIFF image (the `tiff::ColorType` variants the
tool distinguishes; the code only compares values for equality). -/
inductive ColorType where
  | Gray (bits : Nat)
  | RGB (bits : Nat)
  | CMYK (bits : Nat)
deriving Repr, DecidableEq

/-- DPI metadata attached to a composed image (`image/mod.rs`, `DpiInfo`). -/
structure DpiInfo where
  dpi_h : ℚ
  dpi_w : ℚ
deriving Repr, DecidableEq

/-- Dense image, modelled as its list of pixel columns plus optional DPI
metadata (`image/mod.rs`, `MatrixImage`).  The Rust code stores a row-major
`Array2` but accesses it exclusively column-wise in the composition engine. -/
structure MatrixImage where
  mat : List Column
  info : Option DpiInfo
deriving Repr, DecidableEq

/-- Width in pixels: the number of columns (`MatrixImage::width`). -/
def MatrixImage.width (img : MatrixImage) : Nat := img.mat.length

/-- Height in pixels: the number of rows (`MatrixImage::height`); all columns
of a well-formed image have this length. -/
def MatrixImage.height (img : MatrixImage) : Nat := (img.mat.headD []).length

/-- Zero-filled image of the given dimensions (`MatrixImage::new`). -/
def MatrixImage.new (width height : Nat) : MatrixImage :=
  ⟨List.replicate width (List.replicate height default), none⟩

/-- Error type of the core crate (`crates/core/src/error.rs`).  Constructors
mirror the Rust `enum Error`; the payload of each is its rendered message.
`IoError` embeds the Rust variant `Error::IO`. -/
inductive Error where
  | InternalArrayError (msg : String)
  | IoError (msg : String)
  | InvalidInput (msg : String)
  | ImageBuffer (msg : String)
  | DifferentTypesOfPixels (msg : String)
  | Tiff (msg : String)
deriving Repr, DecidableEq

/-- Metadata of a source image as read by `read_params_from_tiff`
(`tiff.rs`, `SourceParams`).  X/Y resolution rationals are modelled as `ℚ`. -/
structure SourceParams where
  color_type : Option ColorType
  width : Nat
  height : Nat
  resolution_unit : Nat
  x_resolution : Option ℚ
  y_resolution : Option ℚ
deriving Repr, DecidableEq

/-- Per-image options (`lenticular/mod.rs`, `ImageOptions`). -/
structure ImageOptions where
  lenticular_width_px : Nat
deriving Repr, DecidableEq

/-- One input image with its options (`tiff.rs`, `InputImageContext`).  The
Rust value carries a reader; here it carries what decoding that reader
yields: the image metadata and the decoded pixel columns. -/
structure InputImageContext where
  params : SourceParams
  data : List Column
  image_options : ImageOptions
deriving Repr, DecidableEq

/-- Global options of a processing run (the `ProcessOptions` consumed by
`calc_output_info`; its `lpi` / `physical_width_cm` fields are read there). -/
structure ProcessOptions where
  lpi : ℚ
  physical_width_cm : ℚ
deriving Repr, DecidableEq

/-- Conversion cm → inch exactly as coded: `physical_width_cm * 0.3937`
(`tiff.rs`, `Params::physical_width_in`). -/
def ProcessOptions.physical_width_in (o : ProcessOptions) : ℚ :=
  o.physical_width_cm * (3937 / 10000)

/-- Scaling algorithm selection (`ScaleAlgorithm`). -/
inductive ScaleAlgorithm where
  | Nearest
  | Bilinear
  | Lanczos3
deriving Repr, DecidableEq

/-- Output image information (`tiff.rs`, `OutputInfo`). -/
structure OutputInfo where
  width : Nat
  height : Nat
  dpi_w : ℚ
  dpi_h : ℚ
  source_params : SourceParams
deriving Repr, DecidableEq

/-- Rust's saturating cast `as u32` applied to a (model) `f64` value:
truncation towards zero, clamped into the `u32` range.  For non-negative
values this is `min ⌊q⌋ (2^32 - 1)`; negative values clamp to `0`. -/
def rust_as_u32 (q : ℚ) : Nat :=
  min (Int.toNat ⌊q⌋) (2 ^ 32 - 1)

/-- Column index mapping
(`lenticular/mod.rs`, `create_line_index_mapping_advanced`): for each local
column `row_index` of image `img_index`, the destination column in the
composite.  Out-of-range indexing of `lenticular_width_map` (a panic in
Rust) is modelled by `getD _ 0`; all theorems assume a valid index. -/
def create_line_index_mapping_advanced (num_cols : Nat)
    (lenticular_width_map : List Nat) (img_index : Nat) : List Nat :=
  let lenticular_width_px := lenticular_width_map.getD img_index 0
  let total_lenticular_width_px := lenticular_width_map.sum
  let image_offset_px := (lenticular_width_map.take img_index).sum
  (List.range num_cols).map fun row_index =>
    row_index % lenticular_width_px
      + row_index / lenticular_width_px * total_lenticular_width_px
      + image_offset_px

/-- Output planning (`tiff.rs`, `calc_output_info`).  The baseline
`SourceParams` are those decoded from the first input; the stripe-width
table is collected from every input's options.  `iter().max().unwrap()` on
the non-empty table is embedded as `foldl Nat.max 0`, which equals the
maximum of any non-empty `Nat` list.  Both the maximum and the total carry
the source's `as u32` narrowing cast, modelled as `% 2^32` (for the
maximum of `u32`-valued widths the cast is the identity; the total
genuinely truncates once the widths sum past `u32::MAX`). -/
def calc_output_info (inputs : List InputImageContext) (options : ProcessOptions) :
    Except Error OutputInfo :=
  match inputs with
  | [] => .error (.InvalidInput "input image list must not be empty")
  | first :: _ =>
    let source_params := first.params
    let lenticular_width_table :=
      inputs.map fun c => c.image_options.lenticular_width_px
    let max_lenticular_width_px : Nat := lenticular_width_table.foldl Nat.max 0 % 2 ^ 32
    let total_lenticular_width_px : Nat := lenticular_width_table.sum % 2 ^ 32
    let dpi : ℚ := options.lpi * max_lenticular_width_px
    let dpi_w : ℚ :=
      dpi * ((total_lenticular_width_px : ℚ) / (max_lenticular_width_px : ℚ))
    let f_scale : ℚ :=
      dpi * options.physical_width_in / (source_params.width : ℚ)
    let f_scale_extra_w : ℚ :=
      (total_lenticular_width_px : ℚ) / (max_lenticular_width_px : ℚ)
    let output_width_px :=
      rust_as_u32 ((source_params.width : ℚ) * f_scale * f_scale_extra_w)
    let output_height_px := rust_as_u32 ((source_params.height : ℚ) * f_scale)
    .ok { width := output_width_px
          height := output_height_px
          dpi_w := dpi_w
          dpi_h := dpi
          source_params := source_params }

/-- Baseline-parameter validation (`tiff.rs`, `is_matching_params`): the
other image must have a known color type equal to the baseline's, and equal
pixel width and height. -/
def is_matching_params (base other : SourceParams) : Bool :=
  other.color_type.isSome
    && base.color_type == other.color_type
    && base.width == other.width
    && base.height == other.height

/-- Message of the `InvalidInput` error raised on a baseline mismatch
(`tiff.rs`, `process_tiff_cmyk8`): it describes expected versus actual
parameters. -/
def mismatch_msg (expected actual : SourceParams) : String :=
  "input image params do not match the baseline params: expected: "
    ++ reprStr expected ++ ", actual: " ++ reprStr actual

/-- A resampling capability (`resize_cmyk8`): maps the source columns and
their dimensions to the columns of the resized image.  It is external to
the core (claims never depend on pixel values it produces). -/
abbrev ResizeFn := List Column → Nat → Nat → Nat → Nat → ScaleAlgorithm → List Column

/-- Column-write loop of the compositor (`tiff.rs`, `process_tiff_cmyk8`,
the `(0..input_img.width()).for_each(..)` loop): each entry pairs a mapped
destination index with the input column to place there.  A destination at
or beyond `output_width` is skipped; otherwise the whole column is written
at the destination. -/
def write_columns_loop (output_width : Nat) (out : List Column) :
    List (Nat × Column) → List Column
  | [] => out
  | (target_index, col) :: rest =>
    if target_index ≥ output_width then
      write_columns_loop output_width out rest
    else
      write_columns_loop output_width (out.set target_index col) rest

/-- Per-image body of `process_tiff_cmyk8`, iterated in input order by
`try_for_each`.  `input_index` is the enumeration index.  The steps mirror
the source: validate against the baseline, compute the local target width
`floor(width_ratio * output_width)`, resample, re-wrap via `from_slice`
(whose shape check is modelled by comparing the column count), compute the
column mapping, and run the write loop.  The stripe-width total carries the
source's `sum::<usize>() as u32` narrowing cast, modelled as `% 2^32`. -/
def process_image_step (resize : ResizeFn) (scale_alg : ScaleAlgorithm)
    (lenticular_width_table : List Nat) (output_info : OutputInfo)
    (input_index : Nat) (input_ctx : InputImageContext) (out : List Column) :
    Except Error (List Column) :=
  let img_params := input_ctx.params
  if is_matching_params output_info.source_params img_params then
    let total_lenticular_width_px : Nat := lenticular_width_table.sum % 2 ^ 32
    let width_ratio : ℚ :=
      (input_ctx.image_options.lenticular_width_px : ℚ)
        / (total_lenticular_width_px : ℚ)
    let target_width_px := rust_as_u32 ⌊width_ratio * (output_info.width : ℚ)⌋
    let target_height_px := output_info.height
    let resized_res :=
      resize input_ctx.data img_params.width img_params.height
        target_width_px target_height_px scale_alg
    if resized_res.length = target_width_px then
      let col_mapping :=
        create_line_index_mapping_advanced resized_res.length
          lenticular_width_table input_index
      .ok (write_columns_loop out.length out (col_mapping.zip resized_res))
    else
      .error (.InternalArrayError "resized buffer does not match target shape")
  else
    .error (.InvalidInput (mismatch_msg output_info.source_params img_params))

/-- Sequential fold of `process_image_step` over the inputs
(`try_for_each` in `process_tiff_cmyk8`); fails fast on the first error. -/
def process_images_from (resize : ResizeFn) (scale_alg : ScaleAlgorithm)
    (lenticular_width_table : List Nat) (output_info : OutputInfo) :
    Nat → List Column → List InputImageContext → Except Error (List Column)
  | _, out, [] => .ok out
  | input_index, out, input_ctx :: rest =>
    match process_image_step resize scale_alg lenticular_width_table output_info
        input_index input_ctx out with
    | .error e => .error e
    | .ok out₂ =>
      process_images_from resize scale_alg lenticular_width_table output_info
        (input_index + 1) out₂ rest

/-- Composition (`tiff.rs`, `process_tiff_cmyk8`): build a zero-filled
composite at the planned dimensions, process every input in order, then
attach the planned DPI metadata. -/
def process_tiff_cmyk8 (resize : ResizeFn) (inputs : List InputImageContext)
    (output_info : OutputInfo) (scale_alg : ScaleAlgorithm) :
    Except Error MatrixImage :=
  match inputs with
  | [] => .error (.InvalidInput "input image list must not be empty")
  | _ :: _ =>
    let lenticular_width_table :=
      inputs.map fun c => c.image_options.lenticular_width_px
    let output_img := MatrixImage.new output_info.width output_info.height
    match process_images_from resize scale_alg lenticular_width_table
        output_info 0 output_img.mat inputs with
    | .error e => .error e
    | .ok cols =>
      .ok { mat := cols
            info := some { dpi_h := output_info.dpi_h, dpi_w := output_info.dpi_w } }

/-- Resolution normalization (`tiff.rs`, `restore_resolution_cmyk8`):
requires DPI metadata; with `dpi_h == dpi_w` the image is returned
unchanged; otherwise one axis is stretched by the DPI ratio (the resample
itself is the external bilinear capability `resize`). -/
def restore_resolution_cmyk8 (resize : ResizeFn) (image : MatrixImage) :
    Except Error MatrixImage :=
  match image.info with
  | none => .error (.InvalidInput "image info missing, cannot restore resolution")
  | some info =>
    if info.dpi_h = info.dpi_w then
      .ok image
    else
      let scale_factor := info.dpi_h / info.dpi_w
      let target :=
        if 1 < scale_factor then
          (rust_as_u32 ⌊(image.width : ℚ) * scale_factor⌋, image.height, info.dpi_h)
        else
          (image.width, rust_as_u32 ⌊(image.height : ℚ) / scale_factor⌋, info.dpi_w)
      let resized_res :=
        resize image.mat image.width image.height target.1 target.2.1
          ScaleAlgorithm.Bilinear
      if resized_res.length = target.1 then
        .ok { mat := resized_res
              info := some { dpi_h := target.2.2, dpi_w := target.2.2 } }
      else
        .error (.InternalArrayError "resized buffer does not match target shape")

/-- Greatest common divisor of the CLI stripe widths
(`bin/cli/src/main.rs`: `iter().cloned().reduce(num::integer::gcd).unwrap_or(1)`). -/
def cli_gcd : List Nat → Nat
  | [] => 1
  | w :: rest => rest.foldl Nat.gcd w

/-- Per-iteration width increments of the auto-width search
(`bin/cli/src/main.rs`: `lenticular_width.iter().map(|w| w / gcd)`). -/
def cli_delta (widths : List Nat) : List Nat :=
  widths.map fun w => w / cli_gcd widths

/-- Stripe widths after `k` iterations of the auto-width search: each
iteration adds `delta` element-wise
(`best_lenticular_width.iter_mut().zip(delta.iter()).for_each(|(w, b)| *w += b)`). -/
def widths_after (widths delta : List Nat) : Nat → List Nat
  | 0 => widths
  | k + 1 => List.zipWith (· + ·) (widths_after widths delta k) delta

/-- Inputs the CLI hands to `calc_output_info` during the search: every
image shares the baseline metadata (the baseline is re-read from the same
first file on every iteration) and carries its current stripe width. -/
def cli_inputs (base : SourceParams) (widths : List Nat) : List InputImageContext :=
  widths.map fun w => { params := base, data := [], image_options := ⟨w⟩ }

/-- Auto-width search loop (`bin/cli/src/main.rs`, the `loop` block),
indexed by remaining fuel.  `none` means the loop is still iterating after
the given number of evaluations; `some (.error e)` propagates a planner
error (the Rust `?`); `some (.ok (widths, info))` is the `break` with the
final widths and planner output.  The loop body has no other exit: the
source imposes no iteration cap. -/
def auto_width_loop (base : SourceParams) (options : ProcessOptions)
    (delta : List Nat) : List Nat → Nat → Option (Except Error (List Nat × OutputInfo))
  | _, 0 => none
  | widths, fuel + 1 =>
    match calc_output_info (cli_inputs base widths) options with
    | .error e => some (.error e)
    | .ok output_info =>
      if output_info.height ≥ output_info.source_params.height then
        some (.ok (widths, output_info))
      else
        auto_width_loop base options delta (List.zipWith (· + ·) widths delta) fuel

instance : Inhabited SourceParams := ⟨⟨none, 0, 0, 0, none, none⟩⟩

instance : Inhabited ImageOptions := ⟨⟨0⟩⟩

instance : Inhabited InputImageContext := ⟨⟨default, [], default⟩⟩

/-! Generic facts about the column index mapping, shared by several of the
claims below. -/

/-- Destination index of local column `row` of image `img_index`: the closed
form computed by `create_line_index_mapping_advanced`. -/
def dest_index (lenticular_width_map : List Nat) (img_index row : Nat) : Nat :=
  row % lenticular_width_map.getD img_index 0
    + row / lenticular_width_map.getD img_index 0 * lenticular_width_map.sum
    + (lenticular_width_map.take img_index).sum

theorem create_line_index_mapping_advanced_length (num_cols : Nat)
    (lenticular_width_map : List Nat) (img_index : Nat) :
    (create_line_index_mapping_advanced num_cols lenticular_width_map img_index).length
      = num_cols := by
  simp [create_line_index_mapping_advanced]

theorem create_line_index_mapping_advanced_getD (num_cols : Nat)
    (lenticular_width_map : List Nat) (img_index : Nat) {row : Nat}
    (hrow : row < num_cols) :
    (create_line_index_mapping_advanced num_cols lenticular_width_map img_index).getD row 0
      = dest_index lenticular_width_map img_index row := by
  have hlen : row <
      (create_line_index_mapping_advanced num_cols lenticular_width_map img_index).length := by
    simpa [create_line_index_mapping_advanced_length] using hrow
  rw [List.getD_eq_getElem _ _ hlen]
  simp [create_line_index_mapping_advanced, dest_index, hrow]

theorem dest_index_strict_mono {lenticular_width_map : List Nat} {img_index : Nat}
    (hw : 0 < lenticular_width_map.getD img_index 0)
    (hwT : lenticular_width_map.getD img_index 0 ≤ lenticular_width_map.sum)
    {r s : Nat} (hrs : r < s) :
    dest_index lenticular_width_map img_index r
      < dest_index lenticular_width_map img_index s := by
  set w := lenticular_width_map.getD img_index 0 with hw_def
  set T := lenticular_width_map.sum with hT_def
  set off := (lenticular_width_map.take img_index).sum with hoff_def
  unfold dest_index
  rw [← hw_def, ← hT_def, ← hoff_def]
  have hq : r / w ≤ s / w := Nat.div_le_div_right hrs.le
  rcases Nat.lt_or_ge (r / w) (s / w) with hlt | hge
  · have hmod : r % w < w := Nat.mod_lt _ hw
    have h1 : r % w + r / w * T < (r / w + 1) * T := by
      have : r % w < T := lt_of_lt_of_le hmod hwT
      calc r % w + r / w * T < T + r / w * T := by omega
        _ = (r / w + 1) * T := by ring
    have h2 : (r / w + 1) * T ≤ s / w * T := Nat.mul_le_mul_right _ hlt
    have h3 : s / w * T ≤ s % w + s / w * T := Nat.le_add_left _ _
    omega
  · have heq : r / w = s / w := le_antisymm hq hge
    have h1 := Nat.div_add_mod r w
    have h2 := Nat.div_add_mod s w
    have hmod : r % w < s % w := by
      rw [heq] at h1
      omega
    have : r / w * T = s / w * T := by rw [heq]
    omega

theorem dest_index_mod_total {lenticular_width_map : List Nat} {img_index : Nat}
    (hw : 0 < lenticular_width_map.getD img_index 0)
    (hoffw : (lenticular_width_map.take img_index).sum
        + lenticular_width_map.getD img_index 0 ≤ lenticular_width_map.sum)
    (r : Nat) :
    dest_index lenticular_width_map img_index r % lenticular_width_map.sum
      = (lenticular_width_map.take img_index).sum
          + r % lenticular_width_map.getD img_index 0 := by
  set w := lenticular_width_map.getD img_index 0 with hw_def
  set T := lenticular_width_map.sum with hT_def
  set off := (lenticular_width_map.take img_index).sum with hoff_def
  have hmod : r % w < w := Nat.mod_lt _ hw
  have hlt : off + r % w < T := by omega
  have hshape : dest_index lenticular_width_map img_index r
      = off + r % w + r / w * T := by
    unfold dest_index
    rw [← hw_def, ← hT_def, ← hoff_def]
    ring
  rw [hshape, Nat.add_mul_mod_self_right, Nat.mod_eq_of_lt hlt]

theorem sum_take_le_sum_take {l : List Nat} {a b : Nat} (hab : a ≤ b) :
    (l.take a).sum ≤ (l.take b).sum := by
  have : l.take b = l.take a ++ (l.drop a).take (b - a) := by
    rw [← List.take_add]
    congr 1
    omega
  rw [this, List.sum_append]
  omega

theorem sum_take_le_sum {l : List Nat} (a : Nat) : (l.take a).sum ≤ l.sum := by
  have := List.sum_take_add_sum_drop l a
  omega

theorem sum_take_succ_nat {l : List Nat} {i : Nat} (h : i < l.length) :
    (l.take (i + 1)).sum = (l.take i).sum + l.getD i 0 := by
  rw [List.getD_eq_getElem _ _ h]
  exact List.sum_take_succ l i h

/-- Destination columns of two distinct images never coincide (for positive
stripe widths): their residues modulo the total stripe width lie in the
disjoint blocks carved out by the cumulative offsets. -/
theorem dest_index_disjoint {lenticular_width_map : List Nat}
    (hpos : ∀ w ∈ lenticular_width_map, 0 < w) {i j : Nat}
    (hi : i < lenticular_width_map.length) (hj : j < lenticular_width_map.length)
    (hij : i < j) (r s : Nat) :
    dest_index lenticular_width_map i r ≠ dest_index lenticular_width_map j s := by
  have hwi : 0 < lenticular_width_map.getD i 0 := by
    rw [List.getD_eq_getElem _ _ hi]
    exact hpos _ (List.getElem_mem hi)
  have hwj : 0 < lenticular_width_map.getD j 0 := by
    rw [List.getD_eq_getElem _ _ hj]
    exact hpos _ (List.getElem_mem hj)
  have hi1 : (lenticular_width_map.take i).sum + lenticular_width_map.getD i 0
      = (lenticular_width_map.take (i + 1)).sum := (sum_take_succ_nat hi).symm
  have hj1 : (lenticular_width_map.take j).sum + lenticular_width_map.getD j 0
      = (lenticular_width_map.take (j + 1)).sum := (sum_take_succ_nat hj).symm
  have hoffi : (lenticular_width_map.take i).sum + lenticular_width_map.getD i 0
      ≤ lenticular_width_map.sum := by
    rw [hi1]; exact sum_take_le_sum _
  have hoffj : (lenticular_width_map.take j).sum + lenticular_width_map.getD j 0
      ≤ lenticular_width_map.sum := by
    rw [hj1]; exact sum_take_le_sum _
  have hblock : (lenticular_width_map.take (i + 1)).sum
      ≤ (lenticular_width_map.take j).sum := sum_take_le_sum_take hij
  intro heq
  have h1 := dest_index_mod_total hwi hoffi r
  have h2 := dest_index_mod_total hwj hoffj s
  rw [heq] at h1
  rw [h1] at h2
  have hri : r % lenticular_width_map.getD i 0 < lenticular_width_map.getD i 0 :=
    Nat.mod_lt _ hwi
  omega

/-- C1: for every `local_width`, every non-empty table of positive stripe
widths and every valid `image_index`, `create_line_index_mapping_advanced`
returns a sequence of length `local_width` whose entry at position `row` is
`(row % own_width) + (row / own_width) * total_width + offset`, with
`own_width = stripe_widths[image_index]`, `total_width = sum stripe_widths`
and `offset = sum (stripe_widths[0..image_index])`; in particular it returns
`[0,1,2,8,9,10,16,17,18,24,25,26]` for `([3,3,2], 0, 12)` and
`[4,5,6,7,16,17,18,19,28,29,30,31]` for `([4,4,4], 1, 12)`. -/
theorem C1_column_mapping (local_width : Nat) (stripe_widths : List Nat)
    (image_index : Nat) (hne : stripe_widths ≠ [])
    (hpos : ∀ w ∈ stripe_widths, 0 < w) (hidx : image_index < stripe_widths.length) :
    (create_line_index_mapping_advanced local_width stripe_widths image_index).length
        = local_width ∧
    (∀ row, row < local_width →
      (create_line_index_mapping_advanced local_width stripe_widths image_index).getD row 0
        = row % stripe_widths.getD image_index 0
            + row / stripe_widths.getD image_index 0 * stripe_widths.sum
            + (stripe_widths.take image_index).sum) ∧
    create_line_index_mapping_advanced 12 [3, 3, 2] 0
        = [0, 1, 2, 8, 9, 10, 16, 17, 18, 24, 25, 26] ∧
    create_line_index_mapping_advanced 12 [4, 4, 4] 1
        = [4, 5, 6, 7, 16, 17, 18, 19, 28, 29, 30, 31] := by
  refine ⟨create_line_index_mapping_advanced_length _ _ _, ?_, by decide, by decide⟩
  intro row hrow
  exact create_line_index_mapping_advanced_getD _ _ _ hrow

/-- Witness for C1 at `local_width = 12`, `stripe_widths = [3,3,2]`,
`image_index = 0`. -/
theorem C1_column_mapping_witness :
    (([3, 3, 2] : List Nat) ≠ [] ∧ (∀ w ∈ ([3, 3, 2] : List Nat), 0 < w) ∧
        0 < ([3, 3, 2] : List Nat).length) ∧
    ((create_line_index_mapping_advanced 12 [3, 3, 2] 0).length = 12 ∧
      (∀ row, row < 12 →
        (create_line_index_mapping_advanced 12 [3, 3, 2] 0).getD row 0
          = row % ([3, 3, 2] : List Nat).getD 0 0
              + row / ([3, 3, 2] : List Nat).getD 0 0 * ([3, 3, 2] : List Nat).sum
              + (([3, 3, 2] : List Nat).take 0).sum) ∧
      create_line_index_mapping_advanced 12 [3, 3, 2] 0
          = [0, 1, 2, 8, 9, 10, 16, 17, 18, 24, 25, 26] ∧
      create_line_index_mapping_advanced 12 [4, 4, 4] 1
          = [4, 5, 6, 7, 16, 17, 18, 19, 28, 29, 30, 31]) :=
  ⟨⟨by decide, by decide, by decide⟩,
    C1_column_mapping 12 [3, 3, 2] 0 (by decide) (by decide) (by decide)⟩

/-- C10: for every table of positive stripe widths, (1) each image's
destination-column sequence is strictly increasing in the local column
index, and (2) for two distinct valid image indices the destination indices
drawn from the same table are always different, so the images' written
columns never overlap. -/
theorem C10_mapping_disjoint (stripe_widths : List Nat)
    (hpos : ∀ w ∈ stripe_widths, 0 < w) :
    (∀ img_index local_width r s, img_index < stripe_widths.length →
      r < s → s < local_width →
      (create_line_index_mapping_advanced local_width stripe_widths img_index).getD r 0
        < (create_line_index_mapping_advanced local_width stripe_widths img_index).getD s 0) ∧
    (∀ i j n m r s, i < stripe_widths.length → j < stripe_widths.length → i ≠ j →
      r < n → s < m →
      (create_line_index_mapping_advanced n stripe_widths i).getD r 0
        ≠ (create_line_index_mapping_advanced m stripe_widths j).getD s 0) := by
  constructor
  · intro img_index local_width r s hidx hrs hsn
    have hw : 0 < stripe_widths.getD img_index 0 := by
      rw [List.getD_eq_getElem _ _ hidx]
      exact hpos _ (List.getElem_mem hidx)
    have hwT : stripe_widths.getD img_index 0 ≤ stripe_widths.sum := by
      rw [List.getD_eq_getElem _ _ hidx]
      exact List.single_le_sum (fun x _ => Nat.zero_le x) _ (List.getElem_mem hidx)
    rw [create_line_index_mapping_advanced_getD _ _ _ (lt_trans hrs hsn),
      create_line_index_mapping_advanced_getD _ _ _ hsn]
    exact dest_index_strict_mono hw hwT hrs
  · intro i j n m r s hi hj hij hrn hsm
    rw [create_line_index_mapping_advanced_getD _ _ _ hrn,
      create_line_index_mapping_advanced_getD _ _ _ hsm]
    rcases Nat.lt_or_ge i j with hlt | hge
    · exact dest_index_disjoint hpos hi hj hlt r s
    · have hlt : j < i := lt_of_le_of_ne hge (Ne.symm hij)
      exact (dest_index_disjoint hpos hj hi hlt s r).symm

/-- Witness for C10 at `stripe_widths = [3,3,2]`: strict monotonicity and
cross-image disjointness of the destination sequences. -/
theorem C10_mapping_disjoint_witness :
    (∀ w ∈ ([3, 3, 2] : List Nat), 0 < w) ∧
    ((∀ img_index local_width r s, img_index < ([3, 3, 2] : List Nat).length →
      r < s → s < local_width →
      (create_line_index_mapping_advanced local_width [3, 3, 2] img_index).getD r 0
        < (create_line_index_mapping_advanced local_width [3, 3, 2] img_index).getD s 0) ∧
    (∀ i j n m r s, i < ([3, 3, 2] : List Nat).length →
      j < ([3, 3, 2] : List Nat).length → i ≠ j → r < n → s < m →
      (create_line_index_mapping_advanced n [3, 3, 2] i).getD r 0
        ≠ (create_line_index_mapping_advanced m [3, 3, 2] j).getD s 0)) :=
  ⟨by decide, C10_mapping_disjoint [3, 3, 2] (by decide)⟩

/-! Facts about the compositor's column-write loop. -/

theorem write_columns_loop_length (output_width : Nat) (out : List Column)
    (entries : List (Nat × Column)) :
    (write_columns_loop output_width out entries).length = out.length := by
  induction entries generalizing out with
  | nil => rfl
  | cons e rest ih =>
    rcases e with ⟨t, c⟩
    by_cases h : t ≥ output_width
    · simp [write_columns_loop, h, ih]
    · simp only [write_columns_loop, if_neg h]
      rw [ih, List.length_set]

theorem write_columns_loop_filter (output_width : Nat) (out : List Column)
    (entries : List (Nat × Column)) :
    write_columns_loop output_width out entries
      = write_columns_loop output_width out
          (entries.filter fun e => decide (e.1 < output_width)) := by
  induction entries generalizing out with
  | nil => rfl
  | cons e rest ih =>
    rcases e with ⟨t, c⟩
    by_cases h : t ≥ output_width
    · have hfalse : decide (t < output_width) = false := by
        simp [Nat.not_lt.mpr h]
      simp only [write_columns_loop, if_pos h, List.filter_cons, hfalse]
      exact ih out
    · have htrue : decide (t < output_width) = true :=
        decide_eq_true (Nat.not_le.mp h)
      simp only [write_columns_loop, if_neg h, List.filter_cons, htrue]
      exact ih _

theorem write_columns_loop_getElem_not_mem (output_width : Nat)
    (out : List Column) (entries : List (Nat × Column)) {d : Nat}
    (hd : d ∉ entries.map Prod.fst) :
    (write_columns_loop output_width out entries)[d]? = out[d]? := by
  induction entries generalizing out with
  | nil => rfl
  | cons e rest ih =>
    rcases e with ⟨t, c⟩
    have hdt : d ≠ t := by
      intro h
      exact hd (by simp [h])
    have hdrest : d ∉ rest.map Prod.fst := by
      intro h
      exact hd (by simp [h])
    by_cases h : t ≥ output_width
    · simp only [write_columns_loop, if_pos h]
      exact ih out hdrest
    · simp only [write_columns_loop, if_neg h]
      rw [ih _ hdrest, List.getElem?_set_ne (Ne.symm hdt)]

theorem write_columns_loop_getElem_mem (output_width : Nat)
    (out : List Column) (entries : List (Nat × Column))
    (hdisj : entries.Pairwise fun a b => a.1 ≠ b.1) {d : Nat} {c : Column}
    (hmem : (d, c) ∈ entries) (hdW : d < output_width) (hdlen : d < out.length) :
    (write_columns_loop output_width out entries)[d]? = some c := by
  induction entries generalizing out with
  | nil => cases hmem
  | cons e rest ih =>
    rcases e with ⟨t, c₀⟩
    rcases List.pairwise_cons.mp hdisj with ⟨hhead, htail⟩
    rcases List.mem_cons.mp hmem with heq | hrest
    · rcases Prod.mk.injEq .. ▸ heq with ⟨ht, hc⟩
      subst ht
      have hnge : ¬ d ≥ output_width := by omega
      simp only [write_columns_loop, if_neg hnge]
      have hdrest : d ∉ rest.map Prod.fst := by
        intro hmap
        rcases List.mem_map.mp hmap with ⟨b, hb, hfst⟩
        exact hhead b hb (by rw [hfst])
      rw [write_columns_loop_getElem_not_mem _ _ _ hdrest,
        List.getElem?_set_eq_of_lt c₀ hdlen, hc]
    · by_cases h : t ≥ output_width
      · simp only [write_columns_loop, if_pos h]
        exact ih _ htail hrest hdlen
      · simp only [write_columns_loop, if_neg h]
        refine ih _ htail hrest ?_
        rw [List.length_set]
        exact hdlen

/-- C4: in the composition write loop, every entry whose mapped
destination is at or beyond the composite width is dropped — the loop
computes the same composite as with those entries removed, the composite
keeps its width (no wrapping) and the loop is total (no error) — while an
entry with destination strictly below the composite width has its whole
column copied to that destination (assuming the per-image mapping hits each
destination at most once, which `C10` establishes for the real mappings),
and destinations no entry maps to keep their previous contents. -/
theorem C4_out_of_range_columns_dropped (out : List Column)
    (entries : List (Nat × Column)) :
    write_columns_loop out.length out entries
      = write_columns_loop out.length out
          (entries.filter fun e => decide (e.1 < out.length)) ∧
    (write_columns_loop out.length out entries).length = out.length ∧
    (entries.Pairwise (fun a b => a.1 ≠ b.1) →
      ∀ d c, (d, c) ∈ entries → d < out.length →
        (write_columns_loop out.length out entries)[d]? = some c) ∧
    (∀ d, d ∉ entries.map Prod.fst →
      (write_columns_loop out.length out entries)[d]? = out[d]?) := by
  refine ⟨write_columns_loop_filter _ _ _, write_columns_loop_length _ _ _, ?_, ?_⟩
  · intro hdisj d c hmem hdW
    exact write_columns_loop_getElem_mem _ _ _ hdisj hmem hdW hdW
  · intro d hd
    exact write_columns_loop_getElem_not_mem _ _ _ hd

/-- Witness for C4: a two-column composite, one in-range entry at
destination 1 and one out-of-range entry at destination 5. -/
theorem C4_out_of_range_columns_dropped_witness :
    (([(1, [⟨1, 2, 3, 4⟩]), (5, [⟨9, 9, 9, 9⟩])] :
        List (Nat × Column)).Pairwise fun a b => a.1 ≠ b.1) ∧
    (1 < ([[⟨0, 0, 0, 0⟩], [⟨0, 0, 0, 0⟩]] : List Column).length) ∧
    (write_columns_loop ([[⟨0, 0, 0, 0⟩], [⟨0, 0, 0, 0⟩]] : List Column).length
        [[⟨0, 0, 0, 0⟩], [⟨0, 0, 0, 0⟩]]
        [(1, [⟨1, 2, 3, 4⟩]), (5, [⟨9, 9, 9, 9⟩])])[1]?
      = some [⟨1, 2, 3, 4⟩] :=
  ⟨by decide, by decide,
    (C4_out_of_range_columns_dropped [[⟨0, 0, 0, 0⟩], [⟨0, 0, 0, 0⟩]]
        [(1, [⟨1, 2, 3, 4⟩]), (5, [⟨9, 9, 9, 9⟩])]).2.2.1
      (by decide) 1 [⟨1, 2, 3, 4⟩] (by decide) (by decide)⟩

/-- Shape contract of the external resampling capability: the resized
buffer has exactly the requested number of columns. -/
def resize_shape_ok (resize : ResizeFn) : Prop :=
  ∀ data w h tw th alg, (resize data w h tw th alg).length = tw

theorem process_images_from_first_mismatch (resize : ResizeFn)
    (hresize : resize_shape_ok resize) (scale_alg : ScaleAlgorithm)
    (table : List Nat) (info : OutputInfo) :
    ∀ (pre : List InputImageContext) (k : Nat) (out : List Column) (i : Nat),
      i < pre.length →
      (∀ j, j < i →
        is_matching_params info.source_params (pre.getD j default).params = true) →
      is_matching_params info.source_params (pre.getD i default).params = false →
      process_images_from resize scale_alg table info k out pre
        = .error (.InvalidInput
            (mismatch_msg info.source_params (pre.getD i default).params)) := by
  intro pre
  induction pre with
  | nil => intro k out i hi _ _; exact absurd hi (by simp)
  | cons p rest ih =>
    intro k out i hi hbefore hmis
    cases i with
    | zero =>
      have hmis₀ : is_matching_params info.source_params p.params = false := by
        simpa using hmis
      simp only [process_images_from, process_image_step, hmis₀, Bool.false_eq_true,
        if_false, List.getD_cons_zero]
    | succ i' =>
      have hmatch : is_matching_params info.source_params p.params = true := by
        simpa using hbefore 0 (Nat.succ_pos _)
      have hstep : ∀ out', process_image_step resize scale_alg table info k p out'
          = .ok (write_columns_loop out'.length out'
              ((create_line_index_mapping_advanced
                  (resize p.data p.params.width p.params.height
                    (rust_as_u32 ⌊(p.image_options.lenticular_width_px : ℚ)
                        / (table.sum % 2 ^ 32 : Nat) * (info.width : ℚ)⌋)
                    info.height scale_alg).length
                  table k).zip
                (resize p.data p.params.width p.params.height
                  (rust_as_u32 ⌊(p.image_options.lenticular_width_px : ℚ)
                      / (table.sum % 2 ^ 32 : Nat) * (info.width : ℚ)⌋)
                  info.height scale_alg))) := by
        intro out'
        simp only [process_image_step, hmatch, if_true, hresize _ _ _ _ _ _, if_pos rfl]
      simp only [process_images_from, hstep, List.getD_cons_succ]
      refine ih (k + 1) _ i' (by simpa using hi) ?_ (by simpa using hmis)
      intro j hj
      simpa using hbefore (j + 1) (by omega)

/-- C5: whenever some input image's color type, pixel width or pixel height
differs from the baseline recorded in `OutputInfo` (and every earlier image
matches it, the resampler honouring its shape contract), composition fails
with `InvalidInput` describing expected versus actual parameters — no
composite is produced. -/
theorem C5_geometry_mismatch_invalid_input (resize : ResizeFn)
    (hresize : resize_shape_ok resize) (scale_alg : ScaleAlgorithm)
    (inputs : List InputImageContext) (output_info : OutputInfo) (i : Nat)
    (hi : i < inputs.length)
    (hbefore : ∀ j, j < i →
      is_matching_params output_info.source_params (inputs.getD j default).params = true)
    (hmis : is_matching_params output_info.source_params
      (inputs.getD i default).params = false) :
    process_tiff_cmyk8 resize inputs output_info scale_alg
      = .error (.InvalidInput (mismatch_msg output_info.source_params
          (inputs.getD i default).params)) := by
  cases inputs with
  | nil => exact absurd hi (by simp)
  | cons p rest =>
    simp only [process_tiff_cmyk8]
    rw [process_images_from_first_mismatch resize hresize scale_alg _ output_info
      (p :: rest) 0 _ i hi hbefore hmis]

/-- Baseline geometry of the mismatched-geometry scenario: 100×100 CMYK8. -/
def params_100x100 : SourceParams :=
  { color_type := some (.CMYK 8), width := 100, height := 100
    resolution_unit := 2, x_resolution := some 72, y_resolution := some 72 }

/-- Second image of the mismatched-geometry scenario: 100×50 CMYK8. -/
def params_100x50 : SourceParams :=
  { color_type := some (.CMYK 8), width := 100, height := 50
    resolution_unit := 2, x_resolution := some 72, y_resolution := some 72 }

/-- A concrete well-shaped resampler: it returns a blank buffer of the
requested dimensions (stands in for the external capability in witnesses). -/
def rz_blank : ResizeFn :=
  fun _ _ _ tw th _ => List.replicate tw (List.replicate th default)

/-- Composition inputs of the mismatched-geometry scenario: image A is
100×100 CMYK8, image B is 100×50 CMYK8, stripe width 1 each. -/
def inputs_mismatch : List InputImageContext :=
  [ { params := params_100x100, data := [], image_options := ⟨1⟩ },
    { params := params_100x50, data := [], image_options := ⟨1⟩ } ]

/-- Planner output of the mismatched-geometry scenario (baseline is A). -/
def info_mismatch : OutputInfo :=
  { width := 20, height := 10, dpi_w := 20, dpi_h := 10
    source_params := params_100x100 }

/-- Witness for C5: the two-image scenario (A 100×100, B 100×50, both
CMYK8) fails with `InvalidInput` describing expected versus actual. -/
theorem C5_geometry_mismatch_invalid_input_witness :
    resize_shape_ok rz_blank ∧ 1 < inputs_mismatch.length ∧
    (∀ j, j < 1 → is_matching_params info_mismatch.source_params
      (inputs_mismatch.getD j default).params = true) ∧
    is_matching_params info_mismatch.source_params
      (inputs_mismatch.getD 1 default).params = false ∧
    process_tiff_cmyk8 rz_blank inputs_mismatch info_mismatch .Bilinear
      = .error (.InvalidInput (mismatch_msg info_mismatch.source_params
          (inputs_mismatch.getD 1 default).params)) :=
  ⟨fun _ _ _ tw th _ => List.length_replicate tw (List.replicate th default),
    by decide,
    fun j hj => by interval_cases j <;> decide,
    by decide,
    C5_geometry_mismatch_invalid_input rz_blank
      (fun _ _ _ tw th _ => List.length_replicate tw (List.replicate th default))
      .Bilinear inputs_mismatch info_mismatch 1 (by decide)
      (fun j hj => by interval_cases j <;> decide) (by decide)⟩

/-- C8: resolution normalization is the identity on an already-normalized
composite — with DPI metadata satisfying `dpi_h = dpi_w` it returns the very
same image (same pixel matrix, same metadata) — and fails with
`InvalidInput` when the composite carries no DPI metadata. -/
theorem C8_restore_resolution_idempotent (resize : ResizeFn)
    (image : MatrixImage) :
    (∀ i, image.info = some i → i.dpi_h = i.dpi_w →
      restore_resolution_cmyk8 resize image = .ok image) ∧
    (image.info = none →
      restore_resolution_cmyk8 resize image
        = .error (.InvalidInput "image info missing, cannot restore resolution")) := by
  constructor
  · intro i hinfo heq
    simp [restore_resolution_cmyk8, hinfo, heq]
  · intro hinfo
    simp [restore_resolution_cmyk8, hinfo]

/-- An already-normalized composite: 2×1 pixels, both DPI fields 20. -/
def normalized_image : MatrixImage :=
  { mat := [[⟨1, 2, 3, 4⟩], [⟨5, 6, 7, 8⟩]]
    info := some { dpi_h := 20, dpi_w := 20 } }

/-- A composite without DPI metadata. -/
def bare_image : MatrixImage :=
  { mat := [[⟨1, 2, 3, 4⟩]], info := none }

/-- Witness for C8: normalizing `normalized_image` returns it unchanged and
normalizing `bare_image` fails with `InvalidInput`. -/
theorem C8_restore_resolution_idempotent_witness :
    normalized_image.info = some { dpi_h := 20, dpi_w := 20 } ∧
    (20 : ℚ) = 20 ∧ bare_image.info = none ∧
    restore_resolution_cmyk8 rz_blank normalized_image = .ok normalized_image ∧
    restore_resolution_cmyk8 rz_blank bare_image
      = .error (.InvalidInput "image info missing, cannot restore resolution") :=
  ⟨rfl, rfl, rfl,
    (C8_restore_resolution_idempotent rz_blank normalized_image).1
      { dpi_h := 20, dpi_w := 20 } rfl rfl,
    (C8_restore_resolution_idempotent rz_blank bare_image).2 rfl⟩

/-- C9: for a non-empty family of inputs with positive stripe widths, any
permutation of the input order (same baseline geometry, same print
parameters) yields the same composite width, composite height, `dpi_h` and
`dpi_w` from the planner, because only the order-independent sum and
maximum of the stripe-width table enter the computation. -/
theorem C9_planner_order_invariant (inputs₁ inputs₂ : List InputImageContext)
    (options : ProcessOptions) (hne : inputs₁ ≠ [])
    (hpos : ∀ w ∈ inputs₁.map (fun c => c.image_options.lenticular_width_px), 0 < w)
    (hperm : List.Perm (inputs₁.map fun c => c.image_options.lenticular_width_px)
      (inputs₂.map fun c => c.image_options.lenticular_width_px))
    (hbase : (inputs₁.headD default).params = (inputs₂.headD default).params) :
    (calc_output_info inputs₁ options).map OutputInfo.width
        = (calc_output_info inputs₂ options).map OutputInfo.width ∧
    (calc_output_info inputs₁ options).map OutputInfo.height
        = (calc_output_info inputs₂ options).map OutputInfo.height ∧
    (calc_output_info inputs₁ options).map OutputInfo.dpi_h
        = (calc_output_info inputs₂ options).map OutputInfo.dpi_h ∧
    (calc_output_info inputs₁ options).map OutputInfo.dpi_w
        = (calc_output_info inputs₂ options).map OutputInfo.dpi_w := by
  have h₂ne : inputs₂ ≠ [] := by
    intro h
    apply hne
    subst h
    have hnil : (inputs₁.map fun c => c.image_options.lenticular_width_px) = [] :=
      List.Perm.eq_nil (by simpa using hperm)
    simpa using hnil
  obtain ⟨a, l₁, rfl⟩ := List.exists_cons_of_ne_nil hne
  obtain ⟨b, l₂, rfl⟩ := List.exists_cons_of_ne_nil h₂ne
  haveI : Std.Commutative Nat.max := ⟨Nat.max_comm⟩
  haveI : Std.Associative Nat.max := ⟨Nat.max_assoc⟩
  have hmax : (((a :: l₁).map fun c => c.image_options.lenticular_width_px).foldl
        Nat.max 0)
      = (((b :: l₂).map fun c => c.image_options.lenticular_width_px).foldl
        Nat.max 0) := hperm.foldl_eq 0
  have hsum := hperm.sum_eq
  have hp : a.params = b.params := by simpa using hbase
  have hfull : calc_output_info (a :: l₁) options = calc_output_info (b :: l₂) options := by
    simp only [calc_output_info]
    rw [hmax, hsum, hp]
  exact ⟨congrArg (Except.map OutputInfo.width) hfull,
    congrArg (Except.map OutputInfo.height) hfull,
    congrArg (Except.map OutputInfo.dpi_h) hfull,
    congrArg (Except.map OutputInfo.dpi_w) hfull⟩

/-- Two-image input family with stripe widths `[3, 2]`. -/
def inputs_32 : List InputImageContext :=
  [ { params := params_100x100, data := [], image_options := ⟨3⟩ },
    { params := params_100x100, data := [], image_options := ⟨2⟩ } ]

/-- The same family in the opposite order (stripe widths `[2, 3]`). -/
def inputs_23 : List InputImageContext :=
  [ { params := params_100x100, data := [], image_options := ⟨2⟩ },
    { params := params_100x100, data := [], image_options := ⟨3⟩ } ]

/-- Witness for C9 at stripe widths `[3, 2]` versus `[2, 3]` with LPI 10 and
physical width 2.54 cm. -/
theorem C9_planner_order_invariant_witness :
    inputs_32 ≠ [] ∧
    (∀ w ∈ inputs_32.map (fun c => c.image_options.lenticular_width_px), 0 < w) ∧
    List.Perm (inputs_32.map fun c => c.image_options.lenticular_width_px)
      (inputs_23.map fun c => c.image_options.lenticular_width_px) ∧
    (inputs_32.headD default).params = (inputs_23.headD default).params ∧
    ((calc_output_info inputs_32 ⟨10, 254 / 100⟩).map OutputInfo.width
        = (calc_output_info inputs_23 ⟨10, 254 / 100⟩).map OutputInfo.width ∧
      (calc_output_info inputs_32 ⟨10, 254 / 100⟩).map OutputInfo.height
        = (calc_output_info inputs_23 ⟨10, 254 / 100⟩).map OutputInfo.height ∧
      (calc_output_info inputs_32 ⟨10, 254 / 100⟩).map OutputInfo.dpi_h
        = (calc_output_info inputs_23 ⟨10, 254 / 100⟩).map OutputInfo.dpi_h ∧
      (calc_output_info inputs_32 ⟨10, 254 / 100⟩).map OutputInfo.dpi_w
        = (calc_output_info inputs_23 ⟨10, 254 / 100⟩).map OutputInfo.dpi_w) :=
  ⟨by decide, by decide, by decide, rfl,
    C9_planner_order_invariant inputs_32 inputs_23 ⟨10, 254 / 100⟩
      (by decide) (by decide) (by decide) rfl⟩

/-- Stripe-width table collected from the inputs' options (the
`lenticular_width_table` of `calc_output_info` / `process_tiff_cmyk8`). -/
def stripe_table (inputs : List InputImageContext) : List Nat :=
  inputs.map fun c => c.image_options.lenticular_width_px

/-- Maximum of the stripe-width table with the source's narrowing cast
(`*iter().max().unwrap() as u32`); for `u32`-valued widths the `% 2^32`
is the identity. -/
def table_max (inputs : List InputImageContext) : Nat :=
  (stripe_table inputs).foldl Nat.max 0 % 2 ^ 32

/-- Sum of the stripe-width table with the source's narrowing cast
(`iter().sum::<usize>() as u32`): it truncates modulo `2^32` once the
widths sum past `u32::MAX`. -/
def table_sum (inputs : List InputImageContext) : Nat :=
  (stripe_table inputs).sum % 2 ^ 32

/-- Horizontal scale factor `f = dpi_h * physical_width_in / baseline_width`
(the `f_scale` of `calc_output_info`). -/
def f_scale_of (inputs : List InputImageContext) (options : ProcessOptions) : ℚ :=
  options.lpi * (table_max inputs : ℚ) * options.physical_width_in
    / ((inputs.headD default).params.width : ℚ)

/-- C2 (amended): for every non-empty input list with positive stripe
widths, positive LPI and positive physical width, the planner returns
`OutputInfo` with `dpi_h = lpi * W32`, `dpi_w = dpi_h * (T32 / W32)`,
`composite_width = sat_u32(baseline_width_px * f * (T32 / W32))` and
`composite_height = sat_u32(baseline_height_px * f)`, where
`f = dpi_h * (physical_width_cm * 0.3937) / baseline_width_px`,
`W32 = max(stripe_widths) % 2^32` (the `as u32` cast of the maximum, the
identity for `u32`-valued widths), `T32 = sum(stripe_widths) % 2^32` (the
`sum::<usize>() as u32` truncation of the total) and `sat_u32` is the
saturating f64 `as u32` cast `min ⌊·⌋ (2^32 - 1)`.  These coincide with the
claimed exact-sum and plain-`floor` formulas whenever the widths' sum and
the computed dimensions fit into `u32`, but not beyond — see the
counterexample for both divergences. -/
theorem C2_planner_formulas (inputs : List InputImageContext)
    (options : ProcessOptions) (hne : inputs ≠ [])
    (hpos : ∀ w ∈ stripe_table inputs, 0 < w)
    (hlpi : 0 < options.lpi) (hpw : 0 < options.physical_width_cm) :
    (calc_output_info inputs options).map OutputInfo.dpi_h
        = .ok (options.lpi * (table_max inputs : ℚ)) ∧
    (calc_output_info inputs options).map OutputInfo.dpi_w
        = .ok (options.lpi * (table_max inputs : ℚ)
            * ((table_sum inputs : ℚ) / (table_max inputs : ℚ))) ∧
    (calc_output_info inputs options).map OutputInfo.width
        = .ok (rust_as_u32 (((inputs.headD default).params.width : ℚ)
            * f_scale_of inputs options
            * ((table_sum inputs : ℚ) / (table_max inputs : ℚ)))) ∧
    (calc_output_info inputs options).map OutputInfo.height
        = .ok (rust_as_u32 (((inputs.headD default).params.height : ℚ)
            * f_scale_of inputs options)) := by
  obtain ⟨a, l, rfl⟩ := List.exists_cons_of_ne_nil hne
  exact ⟨rfl, rfl, rfl, rfl⟩

/-- Input family with two stripe widths 1 and baseline 100×100 CMYK8. -/
def inputs_11 : List InputImageContext :=
  [ { params := params_100x100, data := [], image_options := ⟨1⟩ },
    { params := params_100x100, data := [], image_options := ⟨1⟩ } ]

/-- Print parameters LPI 10, physical width 2.54 cm. -/
def options_c3 : ProcessOptions := { lpi := 10, physical_width_cm := 254 / 100 }

/-- Witness for C2 at `inputs_11` with LPI 10 and width 2.54 cm. -/
theorem C2_planner_formulas_witness :
    inputs_11 ≠ [] ∧
    (∀ w ∈ stripe_table inputs_11, 0 < w) ∧
    0 < options_c3.lpi ∧ 0 < options_c3.physical_width_cm ∧
    ((calc_output_info inputs_11 options_c3).map OutputInfo.dpi_h
        = .ok (options_c3.lpi * (table_max inputs_11 : ℚ)) ∧
      (calc_output_info inputs_11 options_c3).map OutputInfo.dpi_w
        = .ok (options_c3.lpi * (table_max inputs_11 : ℚ)
            * ((table_sum inputs_11 : ℚ) / (table_max inputs_11 : ℚ))) ∧
      (calc_output_info inputs_11 options_c3).map OutputInfo.width
        = .ok (rust_as_u32 (((inputs_11.headD default).params.width : ℚ)
            * f_scale_of inputs_11 options_c3
            * ((table_sum inputs_11 : ℚ) / (table_max inputs_11 : ℚ)))) ∧
      (calc_output_info inputs_11 options_c3).map OutputInfo.height
        = .ok (rust_as_u32 (((inputs_11.headD default).params.height : ℚ)
            * f_scale_of inputs_11 options_c3))) :=
  ⟨by decide, by decide, by norm_num [options_c3], by norm_num [options_c3],
    C2_planner_formulas inputs_11 options_c3 (by decide) (by decide)
      (by norm_num [options_c3]) (by norm_num [options_c3])⟩

/-- Baseline geometry of the out-of-range planner scenarios: 1×1 CMYK8. -/
def params_1x1 : SourceParams :=
  { color_type := some (.CMYK 8), width := 1, height := 1
    resolution_unit := 2, x_resolution := none, y_resolution := none }

/-- A single 1×1 input with stripe width 1. -/
def inputs_sat : List InputImageContext :=
  [ { params := params_1x1, data := [], image_options := ⟨1⟩ } ]

/-- Print parameters whose planned width exceeds the `u32` range:
`lpi = 2^33 = 8589934592` and a physical width of exactly one inch. -/
def options_sat : ProcessOptions := { lpi := 8589934592, physical_width_cm := 10000 / 3937 }

/-- Two 1×1 inputs whose stripe widths `[2^31, 2^31]` are each valid `u32`
values but sum to exactly `2^32`, so the code's `sum::<usize>() as u32`
truncates the total to `0`. -/
def inputs_trunc : List InputImageContext :=
  [ { params := params_1x1, data := [], image_options := ⟨2147483648⟩ },
    { params := params_1x1, data := [], image_options := ⟨2147483648⟩ } ]

/-- Print parameters of the truncation scenario: LPI 1, one physical inch. -/
def options_trunc : ProcessOptions := { lpi := 1, physical_width_cm := 10000 / 3937 }

/-- Counterexample to C2 as stated, in two prongs.  Saturation: at
`inputs_sat` / `options_sat` the claimed composite width
`floor(baseline_width_px * f * (T / W_max)) = 2^33 = 8589934592` exceeds
the `u32` range and the code's f64 `as u32` cast saturates to
`2^32 - 1 = 4294967295` instead.  Truncation: at `inputs_trunc` /
`options_trunc` the widths `[2^31, 2^31]` sum to `2^32`, the code's
`sum::<usize>() as u32` truncates the total to `0`, and the program yields
`dpi_w = 0` while the claimed `dpi_h * (T / W_max)` with the exact sum `T`
is `2 * dpi_h = 2^32 = 4294967296`. -/
theorem C2_planner_formulas_counterexample :
    (calc_output_info inputs_sat options_sat).map OutputInfo.width
        = .ok 4294967295 ∧
    Int.toNat ⌊((inputs_sat.headD default).params.width : ℚ)
        * f_scale_of inputs_sat options_sat
        * ((table_sum inputs_sat : ℚ) / (table_max inputs_sat : ℚ))⌋ = 8589934592 ∧
    (calc_output_info inputs_sat options_sat).map OutputInfo.width
        ≠ .ok (Int.toNat ⌊((inputs_sat.headD default).params.width : ℚ)
            * f_scale_of inputs_sat options_sat
            * ((table_sum inputs_sat : ℚ) / (table_max inputs_sat : ℚ))⌋) ∧
    (calc_output_info inputs_trunc options_trunc).map OutputInfo.dpi_w
        = .ok 0 ∧
    options_trunc.lpi * (((stripe_table inputs_trunc).foldl Nat.max 0 : ℕ) : ℚ)
        * ((((stripe_table inputs_trunc).sum : ℕ) : ℚ)
          / (((stripe_table inputs_trunc).foldl Nat.max 0 : ℕ) : ℚ))
        = 4294967296 ∧
    (calc_output_info inputs_trunc options_trunc).map OutputInfo.dpi_w
        ≠ .ok (options_trunc.lpi
            * (((stripe_table inputs_trunc).foldl Nat.max 0 : ℕ) : ℚ)
            * ((((stripe_table inputs_trunc).sum : ℕ) : ℚ)
              / (((stripe_table inputs_trunc).foldl Nat.max 0 : ℕ) : ℚ))) := by
  have hval : ((inputs_sat.headD default).params.width : ℚ)
      * f_scale_of inputs_sat options_sat
      * ((table_sum inputs_sat : ℚ) / (table_max inputs_sat : ℚ))
      = ((8589934592 : ℕ) : ℚ) := by
    norm_num [f_scale_of, table_max, table_sum, stripe_table, inputs_sat,
      params_1x1, options_sat, ProcessOptions.physical_width_in]
  have hfloor : Int.toNat ⌊((inputs_sat.headD default).params.width : ℚ)
      * f_scale_of inputs_sat options_sat
      * ((table_sum inputs_sat : ℚ) / (table_max inputs_sat : ℚ))⌋ = 8589934592 := by
    rw [hval, Int.floor_natCast]
    rfl
  have hsat : rust_as_u32 (((inputs_sat.headD default).params.width : ℚ)
      * f_scale_of inputs_sat options_sat
      * ((table_sum inputs_sat : ℚ) / (table_max inputs_sat : ℚ)))
      = 4294967295 := by
    rw [rust_as_u32, hval, Int.floor_natCast]
    decide
  have hcalc : (calc_output_info inputs_sat options_sat).map OutputInfo.width
      = .ok (rust_as_u32 (((inputs_sat.headD default).params.width : ℚ)
          * f_scale_of inputs_sat options_sat
          * ((table_sum inputs_sat : ℚ) / (table_max inputs_sat : ℚ)))) := rfl
  have hdpi : (calc_output_info inputs_trunc options_trunc).map OutputInfo.dpi_w
      = .ok (options_trunc.lpi * (table_max inputs_trunc : ℚ)
          * ((table_sum inputs_trunc : ℚ) / (table_max inputs_trunc : ℚ))) := rfl
  have hdpi0 : options_trunc.lpi * (table_max inputs_trunc : ℚ)
      * ((table_sum inputs_trunc : ℚ) / (table_max inputs_trunc : ℚ)) = 0 := by
    norm_num [table_max, table_sum, stripe_table, inputs_trunc, options_trunc]
  have hexact : options_trunc.lpi
      * (((stripe_table inputs_trunc).foldl Nat.max 0 : ℕ) : ℚ)
      * ((((stripe_table inputs_trunc).sum : ℕ) : ℚ)
        / (((stripe_table inputs_trunc).foldl Nat.max 0 : ℕ) : ℚ))
      = 4294967296 := by
    norm_num [stripe_table, inputs_trunc, options_trunc]
  refine ⟨by rw [hcalc, hsat], hfloor, ?_, by rw [hdpi, hdpi0], hexact, ?_⟩
  · rw [hcalc, hsat, hfloor]
    intro h
    exact absurd (Except.ok.injEq .. ▸ h) (by decide)
  · rw [hdpi, hdpi0, hexact]
    intro h
    have h0 : (0 : ℚ) = 4294967296 := Except.ok.injEq .. ▸ h
    norm_num at h0

/-- Counterexample to C3 as stated: with `stripe_widths = [1,1]`, `lpi = 10`
and `physical_width = 2.54 cm` on a 100×100 baseline, the code's conversion
factor `0.3937` makes one physical inch `2.54 * 0.3937 = 0.999998 in`, so
the planned width is `floor(19.99996) = 19` (not 20) and the height
`floor(9.99998) = 9` (not 10). -/
theorem C3_scenario_counterexample :
    (calc_output_info inputs_11 options_c3).map OutputInfo.width = .ok 19 ∧
    (calc_output_info inputs_11 options_c3).map OutputInfo.height = .ok 9 ∧
    (calc_output_info inputs_11 options_c3).map OutputInfo.width ≠ .ok 20 := by
  exact ⟨by with_unfolding_all decide, by with_unfolding_all decide,
    by with_unfolding_all decide⟩

/-- The composite of the C3 scenario: 19×9 blank pixels carrying the
planned anisotropic DPI metadata `dpi_h = 10`, `dpi_w = 20`. -/
def composite_c3 : MatrixImage :=
  { mat := List.replicate 19 (List.replicate 9 default)
    info := some { dpi_h := 10, dpi_w := 20 } }

/-- C3 (amended): in the two-image scenario (both 100×100 CMYK8,
`stripe_widths = [1,1]`, `lpi = 10`, `physical_width = 2.54 cm`) the planner
yields `dpi_h = 10`, `dpi_w = 20`, `composite_width = 19` and
`composite_height = 9` (not 20 and 10: the code's cm→inch factor `0.3937`
makes 2.54 cm slightly less than one inch), and resolution normalization
(ratio `0.5 < 1`) stretches the height to `floor(9 / 0.5) = 18`, keeps the
width at 19 and sets both DPI metadata fields to 20. -/
theorem C3_scenario_amended :
    (calc_output_info inputs_11 options_c3).map OutputInfo.dpi_h = .ok 10 ∧
    (calc_output_info inputs_11 options_c3).map OutputInfo.dpi_w = .ok 20 ∧
    (calc_output_info inputs_11 options_c3).map OutputInfo.width = .ok 19 ∧
    (calc_output_info inputs_11 options_c3).map OutputInfo.height = .ok 9 ∧
    (restore_resolution_cmyk8 rz_blank composite_c3).map MatrixImage.width
        = .ok 19 ∧
    (restore_resolution_cmyk8 rz_blank composite_c3).map MatrixImage.height
        = .ok 18 ∧
    (restore_resolution_cmyk8 rz_blank composite_c3).map MatrixImage.info
        = .ok (some { dpi_h := 20, dpi_w := 20 }) := by
  exact ⟨by with_unfolding_all decide, by with_unfolding_all decide,
    by with_unfolding_all decide, by with_unfolding_all decide,
    by with_unfolding_all decide, by with_unfolding_all decide,
    by with_unfolding_all decide⟩

/-! Facts about the CLI auto-width search. -/

theorem foldl_gcd_dvd (t : List Nat) : ∀ h : Nat,
    (t.foldl Nat.gcd h) ∣ h ∧ ∀ x ∈ t, (t.foldl Nat.gcd h) ∣ x := by
  induction t with
  | nil => intro h; exact ⟨dvd_refl h, by simp⟩
  | cons a t ih =>
    intro h
    have hrec := ih (Nat.gcd h a)
    refine ⟨hrec.1.trans (Nat.gcd_dvd_left h a), ?_⟩
    intro x hx
    rcases List.mem_cons.mp hx with rfl | hx
    · exact hrec.1.trans (Nat.gcd_dvd_right h x)
    · exact hrec.2 x hx

theorem cli_gcd_dvd {widths : List Nat} : ∀ w ∈ widths, cli_gcd widths ∣ w := by
  cases widths with
  | nil => simp
  | cons h t =>
    intro w hw
    rcases List.mem_cons.mp hw with rfl | hw
    · exact (foldl_gcd_dvd t w).1
    · exact (foldl_gcd_dvd t h).2 w hw

theorem cli_gcd_pos {widths : List Nat} (hne : widths ≠ [])
    (hpos : ∀ w ∈ widths, 0 < w) : 0 < cli_gcd widths := by
  obtain ⟨h, t, rfl⟩ := List.exists_cons_of_ne_nil hne
  have hdvd : cli_gcd (h :: t) ∣ h := cli_gcd_dvd h (by simp)
  have hh : 0 < h := hpos h (by simp)
  rcases Nat.eq_zero_or_pos (cli_gcd (h :: t)) with hz | hp
  · rw [hz] at hdvd
    omega
  · exact hp

theorem getD_zipWith_add : ∀ (ws ds : List Nat) (i : Nat), i < ws.length →
    i < ds.length →
    (List.zipWith (· + ·) ws ds).getD i 0 = ws.getD i 0 + ds.getD i 0 := by
  intro ws
  induction ws with
  | nil => simp
  | cons w ws ih =>
    intro ds i hi hdi
    cases ds with
    | nil => simp at hdi
    | cons d ds =>
      cases i with
      | zero => simp [List.zipWith]
      | succ i => simpa using ih ds i (by simpa using hi) (by simpa using hdi)

theorem widths_after_length (ws ds : List Nat) (hlen : ds.length = ws.length) :
    ∀ k, (widths_after ws ds k).length = ws.length := by
  intro k
  induction k with
  | zero => rfl
  | succ k ih =>
    simp only [widths_after, List.length_zipWith, ih, hlen]
    omega

theorem widths_after_getD (ws ds : List Nat) (hlen : ds.length = ws.length) :
    ∀ k i, i < ws.length →
      (widths_after ws ds k).getD i 0 = ws.getD i 0 + k * ds.getD i 0 := by
  intro k
  induction k with
  | zero => intro i hi; simp [widths_after]
  | succ k ih =>
    intro i hi
    have hlen₂ : (widths_after ws ds k).length = ws.length :=
      widths_after_length ws ds hlen k
    rw [widths_after, getD_zipWith_add _ _ i (by omega) (by omega), ih i hi]
    ring

theorem cli_delta_getD {widths : List Nat} {i : Nat} (hi : i < widths.length) :
    (cli_delta widths).getD i 0 = widths.getD i 0 / cli_gcd widths := by
  have hlen : i < (cli_delta widths).length := by
    simpa [cli_delta] using hi
  rw [List.getD_eq_getElem _ _ hlen, List.getD_eq_getElem _ _ hi]
  simp [cli_delta]

theorem cli_delta_ratio {widths : List Nat} (hne : widths ≠ [])
    (hpos : ∀ w ∈ widths, 0 < w) {i j : Nat} (hi : i < widths.length)
    (hj : j < widths.length) :
    (cli_delta widths).getD i 0 * widths.getD j 0
      = (cli_delta widths).getD j 0 * widths.getD i 0 := by
  have hg : 0 < cli_gcd widths := cli_gcd_pos hne hpos
  have hdi : cli_gcd widths ∣ widths.getD i 0 := by
    rw [List.getD_eq_getElem _ _ hi]
    exact cli_gcd_dvd _ (List.getElem_mem hi)
  have hdj : cli_gcd widths ∣ widths.getD j 0 := by
    rw [List.getD_eq_getElem _ _ hj]
    exact cli_gcd_dvd _ (List.getElem_mem hj)
  obtain ⟨a, ha⟩ := hdi
  obtain ⟨b, hb⟩ := hdj
  rw [cli_delta_getD hi, cli_delta_getD hj, ha, hb,
    Nat.mul_div_cancel_left a hg, Nat.mul_div_cancel_left b hg]
  ring

theorem widths_after_ratio {widths : List Nat} (hne : widths ≠ [])
    (hpos : ∀ w ∈ widths, 0 < w) (k : Nat) {i j : Nat}
    (hi : i < widths.length) (hj : j < widths.length) :
    (widths_after widths (cli_delta widths) k).getD i 0 * widths.getD j 0
      = (widths_after widths (cli_delta widths) k).getD j 0 * widths.getD i 0 := by
  have hlen : (cli_delta widths).length = widths.length := by simp [cli_delta]
  rw [widths_after_getD _ _ hlen k i hi, widths_after_getD _ _ hlen k j hj]
  have hr := cli_delta_ratio hne hpos hi hj
  calc (widths.getD i 0 + k * (cli_delta widths).getD i 0) * widths.getD j 0
      = widths.getD i 0 * widths.getD j 0
        + k * ((cli_delta widths).getD i 0 * widths.getD j 0) := by ring
    _ = widths.getD i 0 * widths.getD j 0
        + k * ((cli_delta widths).getD j 0 * widths.getD i 0) := by rw [hr]
    _ = (widths.getD j 0 + k * (cli_delta widths).getD j 0) * widths.getD i 0 := by
        ring

theorem widths_after_shift (ws ds : List Nat) : ∀ k,
    widths_after (List.zipWith (· + ·) ws ds) ds k = widths_after ws ds (k + 1) := by
  intro k
  induction k with
  | zero => rfl
  | succ k ih => simp only [widths_after, ih]

theorem calc_source_params_of_cli {base : SourceParams} {ws : List Nat}
    {options : ProcessOptions} {info : OutputInfo}
    (h : calc_output_info (cli_inputs base ws) options = .ok info) :
    info.source_params = base := by
  cases ws with
  | nil => exact absurd h (by simp [cli_inputs, calc_output_info])
  | cons w ws' =>
    have : info = { width := info.width, height := info.height, dpi_w := info.dpi_w
                    dpi_h := info.dpi_h, source_params := info.source_params } := rfl
    simp only [cli_inputs, List.map_cons, calc_output_info, Except.ok.injEq] at h
    rw [← h]

theorem auto_width_loop_ok {base : SourceParams} {options : ProcessOptions}
    {delta : List Nat} : ∀ (fuel : Nat) (ws ws' : List Nat) (info : OutputInfo),
    auto_width_loop base options delta ws fuel = some (.ok (ws', info)) →
    (∃ k, ws' = widths_after ws delta k) ∧
      info.source_params.height ≤ info.height ∧ info.source_params = base := by
  intro fuel
  induction fuel with
  | zero => intro ws ws' info h; exact Option.noConfusion h
  | succ fuel ih =>
    intro ws ws' info h
    rw [auto_width_loop] at h
    split at h
    · exact Except.noConfusion (Option.some.inj h)
    · rename_i info₀ hcalc
      split at h
      · rename_i hstop
        obtain ⟨rfl, rfl⟩ : ws = ws' ∧ info₀ = info := by
          have h₂ := Except.ok.inj (Option.some.inj h)
          exact ⟨congrArg Prod.fst h₂, congrArg Prod.snd h₂⟩
        exact ⟨⟨0, rfl⟩, hstop, calc_source_params_of_cli hcalc⟩
      · rcases ih _ _ _ h with ⟨⟨k, hk⟩, hh, hb⟩
        exact ⟨⟨k + 1, by rw [hk, widths_after_shift]⟩, hh, hb⟩

/-- C6: the auto-width search adds `delta_i = initial_widths[i] / gcd` to
every width each iteration; after every iteration the widths preserve the
initial pairwise ratios (`widths[i] * initial[j] = widths[j] * initial[i]`,
the cross-multiplied form of a constant `widths[i] / widths[j]`), and
whenever the loop terminates with a result, the composite height is at
least the baseline height and the result's widths still preserve the
ratios. -/
theorem C6_auto_width_search_ratios (widths : List Nat) (hne : widths ≠ [])
    (hpos : ∀ w ∈ widths, 0 < w) (base : SourceParams)
    (options : ProcessOptions) :
    (∀ k, widths_after widths (cli_delta widths) (k + 1)
        = List.zipWith (· + ·) (widths_after widths (cli_delta widths) k)
            (cli_delta widths)) ∧
    (∀ k i j, i < widths.length → j < widths.length →
      (widths_after widths (cli_delta widths) k).getD i 0 * widths.getD j 0
        = (widths_after widths (cli_delta widths) k).getD j 0 * widths.getD i 0) ∧
    (∀ fuel ws' info,
      auto_width_loop base options (cli_delta widths) widths fuel
          = some (.ok (ws', info)) →
      info.source_params = base ∧ base.height ≤ info.height ∧
      ∀ i j, i < widths.length → j < widths.length →
        ws'.getD i 0 * widths.getD j 0 = ws'.getD j 0 * widths.getD i 0) := by
  refine ⟨fun k => rfl, ?_, ?_⟩
  · intro k i j hi hj
    exact widths_after_ratio hne hpos k hi hj
  · intro fuel ws' info h
    rcases auto_width_loop_ok fuel widths ws' info h with ⟨⟨k, rfl⟩, hh, hb⟩
    refine ⟨hb, ?_, ?_⟩
    · rw [← hb]; exact hh
    · intro i j hi hj
      exact widths_after_ratio hne hpos k hi hj

/-- Witness for C6 at initial widths `[2, 4]` (gcd 2, so the per-iteration
delta is `[1, 2]`) with a 100×100 baseline, LPI 10 and width 2.54 cm. -/
theorem C6_auto_width_search_ratios_witness :
    (([2, 4] : List Nat) ≠ [] ∧ (∀ w ∈ ([2, 4] : List Nat), 0 < w)) ∧
    ((∀ k, widths_after [2, 4] (cli_delta [2, 4]) (k + 1)
        = List.zipWith (· + ·) (widths_after [2, 4] (cli_delta [2, 4]) k)
            (cli_delta [2, 4])) ∧
    (∀ k i j, i < ([2, 4] : List Nat).length → j < ([2, 4] : List Nat).length →
      (widths_after [2, 4] (cli_delta [2, 4]) k).getD i 0 * ([2, 4] : List Nat).getD j 0
        = (widths_after [2, 4] (cli_delta [2, 4]) k).getD j 0
            * ([2, 4] : List Nat).getD i 0) ∧
    (∀ fuel ws' info,
      auto_width_loop params_100x100 options_c3 (cli_delta [2, 4]) [2, 4] fuel
          = some (.ok (ws', info)) →
      info.source_params = params_100x100 ∧ params_100x100.height ≤ info.height ∧
      ∀ i j, i < ([2, 4] : List Nat).length → j < ([2, 4] : List Nat).length →
        ws'.getD i 0 * ([2, 4] : List Nat).getD j 0
          = ws'.getD j 0 * ([2, 4] : List Nat).getD i 0)) :=
  ⟨⟨by decide, by decide⟩,
    C6_auto_width_search_ratios [2, 4] (by decide) (by decide)
      params_100x100 options_c3⟩

theorem auto_width_loop_no_error {base : SourceParams} {options : ProcessOptions}
    {delta : List Nat} : ∀ (fuel : Nat) (ws : List Nat), ws ≠ [] →
    ws.length = delta.length → ∀ e : Error,
    auto_width_loop base options delta ws fuel ≠ some (.error e) := by
  intro fuel
  induction fuel with
  | zero => intro ws _ _ e h; exact Option.noConfusion h
  | succ fuel ih =>
    intro ws hne hlen e h
    obtain ⟨w, ws', rfl⟩ := List.exists_cons_of_ne_nil hne
    rw [auto_width_loop] at h
    split at h
    · rename_i e₀ hcalc
      exact absurd hcalc (by simp [cli_inputs, calc_output_info])
    · split at h
      · exact Except.noConfusion (Option.some.inj h)
      · have hzlen : (List.zipWith (· + ·) (w :: ws') delta).length = delta.length := by
          rw [List.length_zipWith, hlen]
          omega
        have hzne : List.zipWith (· + ·) (w :: ws') delta ≠ [] := by
          intro hnil
          have := congrArg List.length hnil
          rw [hzlen] at this
          simp only [List.length_nil] at this
          rw [← hlen] at this
          simp at this
        exact ih _ hzne (by rw [hzlen]) e h

/-- Search parameters that need 1017 iterations: LPI 1 and a physical width
of 2.5 mm on the 100×100 baseline. -/
def options_slow : ProcessOptions := { lpi := 1, physical_width_cm := 1 / 4 }

set_option maxRecDepth 100000 in
/-- Counterexample to C7 as stated: the auto-width search imposes no
iteration bound — at initial width `[1]` with `options_slow` it is still
iterating after 1000 evaluations (`none` = fuel exhausted with neither a
`break` nor an error), instead of failing with a `SearchExhausted` error;
indeed the embedded core error type has no such variant and the loop has no
error exit of its own. -/
theorem C7_search_bound_counterexample :
    auto_width_loop params_100x100 options_slow (cli_delta [1]) [1] 1000 = none := by
  with_unfolding_all rfl

set_option maxRecDepth 100000 in
/-- C7 (amended): the auto-width search imposes no iteration cap and never
fails: for every non-empty initial widths vector the loop either is still
iterating or has broken successfully — it can never produce an error value —
and at the concrete slow input it runs past 1000 iterations and succeeds at
iteration 1017 with composite height 100 ≥ baseline height 100. -/
theorem C7_search_no_bound_amended :
    (∀ (base : SourceParams) (options : ProcessOptions) (ws : List Nat)
      (fuel : Nat) (e : Error), ws ≠ [] →
      auto_width_loop base options (cli_delta ws) ws fuel ≠ some (.error e)) ∧
    auto_width_loop params_100x100 options_slow (cli_delta [1]) [1] 1017
      = some (.ok ([1017],
          { width := 100, height := 100, dpi_w := 1017, dpi_h := 1017
            source_params := params_100x100 })) := by
  constructor
  · intro base options ws fuel e hne
    exact auto_width_loop_no_error fuel ws hne (by simp [cli_delta]) e
  · with_unfolding_all rfl

/-- Witness for C7 (amended) at initial widths `[1]` and fuel 3. -/
theorem C7_search_no_bound_amended_witness :
    (([1] : List Nat) ≠ []) ∧
    auto_width_loop params_100x100 options_slow (cli_delta [1]) [1] 3
      ≠ some (.error (.InvalidInput "input image list must not be empty")) :=
  ⟨by decide,
    C7_search_no_bound_amended.1 params_100x100 options_slow [1] 3
      (.InvalidInput "input image list must not be empty") (by decide)⟩

end Lenticular
